import Mathlib

set_option linter.unusedVariables false

/-! Shallow embedding of the bureau-mcp server (src/index.js) together with
proofs about its task-directory naming scheme, report-number allocation,
current-task pointer and listing policies.

Strings are compared by the codepoint-lexicographic order on their character
lists, which models the code-unit comparison performed by the JavaScript
relational operators on strings and by the default Array.prototype.sort
comparator (the two agree on all strings without astral code points, and in
particular on every string the claims mention). -/

/-- Strict lexicographic order on character lists, by code point. -/
def clLt : List Char → List Char → Bool
  | _, [] => false
  | [], _ :: _ => true
  | a :: as, b :: bs => a.toNat < b.toNat || (a.toNat == b.toNat && clLt as bs)

/-- JavaScript string less-or-equal (`a <= b`), also the "a stays before b"
relation of the default sort comparator. -/
def strLeB (a b : String) : Bool := !(clLt b.data a.data)

/-- Propositional form of strLeB, used as the sorting relation. -/
def strLeP (a b : String) : Prop := strLeB a b = true

instance : DecidableRel strLeP := fun a b => inferInstanceAs (Decidable (_ = true))

/-- Model of JavaScript Array.prototype.sort() on strings: a stable sort by
the code-unit order. Insertion sort is stable, and for this total relation
any stable sort yields the same list. -/
def sortStrings (l : List String) : List String := l.insertionSort strLeP

/-- Is the character a decimal digit, as matched by the regex class \d. -/
def isDigitChar (c : Char) : Bool := 48 ≤ c.toNat && c.toNat ≤ 57

/-- True when the character is not a JavaScript line terminator, i.e. when the
regex metacharacter dot (without the s flag) can match it. -/
def notLineTerm (c : Char) : Bool :=
  !(c.toNat == 10 || c.toNat == 13 || c.toNat == 8232 || c.toNat == 8233)

/-- Does the character list consist of dot-matchable characters followed by
the literal suffix ".md"?  Models the regex fragment `.*\.md$`. -/
def mdTail (rest : List Char) : Bool :=
  3 ≤ rest.length && rest.drop (rest.length - 3) == ['.', 'm', 'd']
    && (rest.take (rest.length - 3)).all notLineTerm

/-- The report-filename test /^\d{3}-.*\.md$/ used by getReportFiles
(src/index.js line 79). -/
def reportMatch (s : String) : Bool :=
  match s.data with
  | c0 :: c1 :: c2 :: h :: rest =>
    isDigitChar c0 && isDigitChar c1 && isDigitChar c2 && h == '-' && mdTail rest
  | _ => false

/-- The number findNextReportNumber extracts from a filename via the
three-digit-group regex of src/index.js line 157 and parseInt; 0 when the
regex does not match. -/
def reportNum (s : String) : Nat :=
  match s.data with
  | c0 :: c1 :: c2 :: h :: rest =>
    if isDigitChar c0 && isDigitChar c1 && isDigitChar c2 && h == '-' then
      100 * (c0.toNat - 48) + 10 * (c1.toNat - 48) + (c2.toNat - 48)
    else 0
  | _ => 0

/-- Model of parseTaskDirName (src/index.js lines 22-27): the regex
/^(\d{4}-\d{2}-\d{2}[b-z]?)-(.+)$/ returning the captured date prefix and
slug, or none when the name does not match. -/
def parseTaskDirName (s : String) : Option (String × String) :=
  match s.data with
  | y1 :: y2 :: y3 :: y4 :: h1 :: m1 :: m2 :: h2 :: d1 :: d2 :: rest =>
    if isDigitChar y1 && isDigitChar y2 && isDigitChar y3 && isDigitChar y4
        && h1 == '-' && isDigitChar m1 && isDigitChar m2 && h2 == '-'
        && isDigitChar d1 && isDigitChar d2 then
      match rest with
      | c :: rest2 =>
        if 98 ≤ c.toNat && c.toNat ≤ 122 then
          match rest2 with
          | h3 :: label =>
            if h3 == '-' && !label.isEmpty && label.all notLineTerm then
              some (⟨[y1, y2, y3, y4, h1, m1, m2, h2, d1, d2, c]⟩, ⟨label⟩)
            else none
          | [] => none
        else if c == '-' then
          if !rest2.isEmpty && rest2.all notLineTerm then
            some (⟨[y1, y2, y3, y4, h1, m1, m2, h2, d1, d2]⟩, ⟨rest2⟩)
          else none
        else none
      | [] => none
    else none
  | _ => none

/-- One entry of the task root, as seen by readdir with file types. -/
structure DirEnt where
  name : String
  isDir : Bool
deriving DecidableEq

/-- The filesystem state the server reads and mutates: the entries of the
_tasks root, the target string of the _tasks/current symlink (none when the
link is absent), and the listing of each task directory keyed by directory
name (a missing key models a directory whose readdir fails, e.g. because it
was deleted). -/
structure FS where
  rootEntries : List DirEnt
  currentLink : Option String
  taskFiles : List (String × List String)
deriving DecidableEq

/-- Model of getAllTaskDirs (src/index.js lines 30-41): names of root entries
that are directories and parse as task directory names, sorted. -/
def getAllTaskDirs (fs : FS) : List String :=
  sortStrings ((fs.rootEntries.filter
    (fun e => e.isDir && (parseTaskDirName e.name).isSome)).map (fun e => e.name))

/-- A calendar date, the date part of a JavaScript Date. -/
structure Date where
  year : Nat
  month : Nat
  day : Nat
deriving DecidableEq

/-- The decimal digit character for d < 10. -/
def digitChar (d : Nat) : Char := Char.ofNat (48 + d)

/-- Decimal digit characters of a natural number, fuel-based so that it
reduces in the kernel; the fuel n + 1 always suffices. -/
def decCharsAux : Nat → Nat → List Char
  | 0, _ => []
  | fuel + 1, n =>
    if n < 10 then [digitChar n] else decCharsAux fuel (n / 10) ++ [digitChar (n % 10)]

/-- The decimal representation of a natural number, as String(n) produces. -/
def decChars (n : Nat) : List Char := decCharsAux (n + 1) n

/-- Model of String(n).padStart(3, "0") used by start_new_report_file
(src/index.js line 357). -/
def padStart3 (n : Nat) : String :=
  ⟨List.replicate (3 - (decChars n).length) '0' ++ decChars n⟩

/-- Four fixed decimal digits, the year part of the toISOString date. -/
def pad4 (n : Nat) : List Char :=
  [digitChar (n / 1000 % 10), digitChar (n / 100 % 10), digitChar (n / 10 % 10),
    digitChar (n % 10)]

/-- Two fixed decimal digits, the month and day parts of the toISOString
date. -/
def pad2 (n : Nat) : List Char := [digitChar (n / 10 % 10), digitChar (n % 10)]

/-- The date part of Date.prototype.toISOString (YYYY-MM-DD), faithful for
years up to 9999. -/
def formatDate (dt : Date) : String :=
  ⟨pad4 dt.year ++ '-' :: (pad2 dt.month ++ '-' :: pad2 dt.day)⟩

/-- Day number of a civil date (days since 0000-03-01, Gregorian), valid for
years from 1 on; the standard era-based conversion. -/
def toDays (dt : Date) : Nat :=
  let y := if dt.month ≤ 2 then dt.year - 1 else dt.year
  let era := y / 400
  let yoe := y % 400
  let mp := (dt.month + 9) % 12
  let doy := (153 * mp + 2) / 5 + dt.day - 1
  let doe := yoe * 365 + yoe / 4 - yoe / 100 + doy
  era * 146097 + doe

/-- Civil date of a day number, the inverse of toDays. -/
def fromDays (z : Nat) : Date :=
  let era := z / 146097
  let doe := z % 146097
  let yoe := (doe - doe / 1460 + doe / 36524 - doe / 146096) / 365
  let y := yoe + era * 400
  let doy := doe - (365 * yoe + yoe / 4 - yoe / 100)
  let mp := (5 * doy + 2) / 153
  let d := doy - (153 * mp + 2) / 5 + 1
  let m := if mp < 10 then mp + 3 else mp - 9
  ⟨if m ≤ 2 then y + 1 else y, m, d⟩

/-- Calendar subtraction of n days, the effect of setDate(getDate() - n) on a
valid JavaScript Date. -/
def subDays (dt : Date) (n : Nat) : Date := fromDays (toDays dt - n)

/-- Model of datePrefix.replace(/[b-z]$/, "") from getRecentTaskDirs
(src/index.js line 54). -/
def stripDis (s : String) : String :=
  match s.data.getLast? with
  | some c => if 98 ≤ c.toNat && c.toNat ≤ 122 then ⟨s.data.dropLast⟩ else s
  | none => s

/-- Model of getRecentTaskDirs (src/index.js lines 44-57); today stands for
new Date(), and the thirty-day cutoff string comparison is the JavaScript
string comparison. -/
def getRecentTaskDirs (fs : FS) (today : Date) : List String :=
  let cutoffStr := formatDate (subDays today 30)
  (getAllTaskDirs fs).filter (fun dirName =>
    match parseTaskDirName dirName with
    | none => false
    | some p => strLeB cutoffStr (stripDis p.1))

/-- Model of path.basename on the (relative or absolute) link target joined
under the task root: trailing slashes are dropped and the last
slash-separated component is returned. Dot segments, which path.join would
normalize, are not modelled; every target the server itself writes is a
plain directory name. -/
def basename (p : String) : String :=
  ⟨((p.data.reverse.dropWhile (fun c => c == '/')).takeWhile
    (fun c => !(c == '/'))).reverse⟩

/-- Model of getCurrentTaskDir (src/index.js lines 60-70): readlink succeeds
even when the target directory no longer exists, and the base name of the
target is returned; none only when the link itself is absent. -/
def getCurrentTaskDir (fs : FS) : Option String :=
  fs.currentLink.map basename

/-- Model of getReportFiles (src/index.js lines 73-93): filter the directory
listing by the report regex, sort, and return the whole list when it has at
most 50 entries, otherwise the earliest 20 followed by the latest 30. -/
def getReportFiles (fs : FS) (taskDir : String) : List String :=
  match fs.taskFiles.lookup taskDir with
  | none => []
  | some entries =>
    let reportFiles := sortStrings (entries.filter reportMatch)
    if reportFiles.length ≤ 50 then reportFiles
    else reportFiles.take 20 ++ reportFiles.drop (reportFiles.length - 30)

/-- The result record of current_task, start_new_task and switch_task. -/
structure TaskInfo where
  task_slug : String
  reports_dir : String
  report_file_names : List String
deriving DecidableEq

/-- Model of getTaskInfo (src/index.js lines 96-112); a null or empty
directory name, and a name that does not parse, all yield null. -/
def getTaskInfo (fs : FS) (taskDir : Option String) : Option TaskInfo :=
  match taskDir with
  | none => none
  | some td =>
    if td = "" then none
    else
      match parseTaskDirName td with
      | none => none
      | some p => some ⟨p.2, "_tasks/" ++ td, getReportFiles fs td⟩

/-- Model of getDateSuffix (src/index.js lines 13-19); the toISOString date
string is passed in as today. String.fromCharCode(97 + index) is modelled
faithfully for the indices below 26 that findNextTaskDirName probes. -/
def getDateSuffix (today : String) (index : Nat) : String :=
  if index = 0 then today else today.push (Char.ofNat (97 + index))

/-- Largest element of a list of naturals (0 on the empty list); equals
Math.max(...ns) on a nonempty ns. -/
def maxNum (ns : List Nat) : Nat := ns.foldr Nat.max 0

/-- The probe loop of findNextTaskDirName (src/index.js lines 120-128), by
remaining iteration count and current index. The startsWith(today) guard of
line 122 never fires because the model uses one consistent today. -/
def probeAux (allDirs : List String) (today slug : String) :
    Nat → Nat → Except String String
  | 0, _ => .error "Too many tasks for today (max 26)"
  | k + 1, i =>
    let candidate := getDateSuffix today i ++ "-" ++ slug
    if allDirs.contains candidate then probeAux allDirs today slug k (i + 1)
    else .ok candidate

/-- Model of findNextTaskDirName (src/index.js lines 115-131). -/
def findNextTaskDirName (fs : FS) (today slug : String) : Except String String :=
  probeAux (getAllTaskDirs fs) today slug 26 0

/-- Model of updateCurrentSymlink (src/index.js lines 134-146): the link is
replaced by one pointing at the given directory name. -/
def updateCurrentSymlink (fs : FS) (taskDir : String) : FS :=
  { fs with currentLink := some taskDir }

/-- Model of fs.mkdir(taskPath, recursive) in the start_new_task handler: a
no-op on an existing directory, an error on an existing non-directory
entry, otherwise the directory appears in the root with an empty listing. -/
def mkdirTask (fs : FS) (name : String) : Except String FS :=
  match fs.rootEntries.find? (fun e => e.name == name) with
  | some e => if e.isDir then .ok fs else .error "EEXIST: file already exists"
  | none =>
    .ok ⟨fs.rootEntries ++ [⟨name, true⟩], fs.currentLink, (name, []) :: fs.taskFiles⟩

/-- Model of findNextReportNumber (src/index.js lines 149-163): one more
than the largest parsed number of the listed report files, or 1 when none
are listed. Note that the listing used is getReportFiles, bounded window
included. -/
def findNextReportNumber (fs : FS) (taskDir : String) : Nat :=
  let reportFiles := getReportFiles fs taskDir
  if reportFiles.isEmpty then 1 else maxNum (reportFiles.map reportNum) + 1

/-- Model of findTaskDirBySlug (src/index.js lines 166-178): the last sorted
directory whose parsed slug equals the requested one. -/
def findTaskDirBySlug (fs : FS) (slug : String) : Option String :=
  (getAllTaskDirs fs).reverse.find? (fun d =>
    match parseTaskDirName d with
    | some p => p.2 == slug
    | none => false)

/-- The current_task tool handler (src/index.js lines 267-286); none models
the explicit "No current task" result. -/
def current_task (fs : FS) : Option TaskInfo :=
  getTaskInfo fs (getCurrentTaskDir fs)

/-- The start_new_task tool handler (src/index.js lines 288-306): the
post-call state paired with the result; the inner Option mirrors
getTaskInfo possibly returning null. -/
def start_new_task (fs : FS) (today task_slug : String) :
    FS × Except String (Option TaskInfo) :=
  if task_slug = "" then (fs, .error "task_slug is required")
  else
    match findNextTaskDirName fs today task_slug with
    | .error e => (fs, .error e)
    | .ok taskDirName =>
      match mkdirTask fs taskDirName with
      | .error e => (fs, .error e)
      | .ok fs1 =>
        let fs2 := updateCurrentSymlink fs1 taskDirName
        (fs2, .ok (getTaskInfo fs2 (some taskDirName)))

/-- The switch_task tool handler (src/index.js lines 308-328). -/
def switch_task (fs : FS) (task_slug : String) : FS × Except String (Option TaskInfo) :=
  if task_slug = "" then (fs, .error "task_slug is required")
  else
    match findTaskDirBySlug fs task_slug with
    | none => (fs, .error ("Task not found: " ++ task_slug))
    | some taskDir =>
      let fs2 := updateCurrentSymlink fs taskDir
      (fs2, .ok (getTaskInfo fs2 (some taskDir)))

/-- The list_recent_tasks tool handler (src/index.js lines 330-343): map the
recent directories to parsed slugs, dropping falsy values (the JavaScript
map-to-null-then-filter(Boolean) is the filterMap below followed by
dropping empty strings). -/
def list_recent_tasks (fs : FS) (today : Date) : List String :=
  ((getRecentTaskDirs fs today).filterMap
    (fun d => (parseTaskDirName d).map (fun p => p.2))).filter (fun s => !(s == ""))

/-- The start_new_report_file tool handler (src/index.js lines 345-366);
only a path is computed, no file is created. -/
def start_new_report_file (fs : FS) (suffix : String) : Except String String :=
  if suffix = "" then .error "suffix is required"
  else
    match getCurrentTaskDir fs with
    | none => .error "No current task"
    | some taskDir =>
      if taskDir = "" then .error "No current task"
      else
        .ok ("_tasks/" ++ taskDir ++ "/"
          ++ (padStart3 (findNextReportNumber fs taskDir) ++ "-" ++ suffix ++ ".md"))

/-- Modelled from the spec: the Report Catalog in its unbounded form — the
filtered, lexicographically sorted report listing with no 50-item window
(spec 4.4/4.6). -/
def listReportsUnbounded (fs : FS) (taskDir : String) : List String :=
  match fs.taskFiles.lookup taskDir with
  | none => []
  | some entries => sortStrings (entries.filter reportMatch)

/-- Modelled from the spec: the bounded-window policy of spec 4.4 — a
sequence of at most 50 elements is returned whole, otherwise the
concatenation of its first 20 and last 30 elements. -/
def windowPolicy (l : List String) : List String :=
  if l.length ≤ 50 then l else l.take 20 ++ l.drop (l.length - 30)

/-- Modelled from the spec: next_report_number computed from the full
untruncated report listing (spec 4.6). -/
def findNextReportNumberUnbounded (fs : FS) (taskDir : String) : Nat :=
  let reportFiles := listReportsUnbounded fs taskDir
  if reportFiles.isEmpty then 1 else maxNum (reportFiles.map reportNum) + 1

/-- The caller-side effect of actually creating a proposed report file: the
named file is appended to the task directory listing and nothing else
changes (the directory is created when absent). -/
def createReportFile (fs : FS) (taskDir name : String) : FS :=
  match fs.taskFiles.lookup taskDir with
  | some l => { fs with taskFiles := (taskDir, l ++ [name]) :: fs.taskFiles }
  | none => { fs with taskFiles := (taskDir, [name]) :: fs.taskFiles }

/-- Is the string of the shape \d{4}-\d{2}-\d{2}, the shape every
toISOString-derived today string has. -/
def dateShaped (s : String) : Bool :=
  match s.data with
  | [y1, y2, y3, y4, h1, m1, m2, h2, d1, d2] =>
    isDigitChar y1 && isDigitChar y2 && isDigitChar y3 && isDigitChar y4
      && h1 == '-' && isDigitChar m1 && isDigitChar m2 && h2 == '-'
      && isDigitChar d1 && isDigitChar d2
  | _ => false

/-! Order properties of the string comparison, and facts about sortStrings. -/

theorem clLt_asymm : ∀ (x y : List Char), clLt x y = true → clLt y x = false := by
  intro x
  induction x with
  | nil =>
    intro y h
    cases y with
    | nil => simp [clLt] at h
    | cons b bs => simp [clLt]
  | cons a as ih =>
    intro y h
    cases y with
    | nil => simp [clLt] at h
    | cons b bs =>
      simp only [clLt, Bool.or_eq_true, Bool.and_eq_true, decide_eq_true_eq,
        beq_iff_eq] at h
      apply Bool.eq_false_iff.mpr
      intro hcon
      simp only [clLt, Bool.or_eq_true, Bool.and_eq_true, decide_eq_true_eq,
        beq_iff_eq] at hcon
      rcases h with h1 | ⟨he, hr⟩
      · rcases hcon with h2 | ⟨he2, _⟩ <;> omega
      · rcases hcon with h2 | ⟨he2, hr2⟩
        · omega
        · rw [ih bs hr] at hr2
          exact Bool.false_ne_true hr2

theorem clLt_nlt_trans : ∀ (a b c : List Char),
    clLt b a = false → clLt c b = false → clLt c a = false := by
  intro a
  induction a with
  | nil =>
    intro b c h1 h2
    cases c with
    | nil => simp [clLt]
    | cons c0 cs => simp [clLt]
  | cons a0 as ih =>
    intro b c h1 h2
    cases c with
    | nil =>
      exfalso
      cases b with
      | nil => simp [clLt] at h1
      | cons b0 bs => simp [clLt] at h2
    | cons c0 cs =>
      cases b with
      | nil => simp [clLt] at h1
      | cons b0 bs =>
        simp only [clLt, Bool.or_eq_true, Bool.and_eq_true, decide_eq_true_eq,
          beq_iff_eq, Bool.or_eq_false_iff, Bool.and_eq_false_iff,
          decide_eq_false_iff_not, beq_eq_false_iff_ne, ne_eq] at h1 h2 ⊢
      
        obtain ⟨h1a, h1b⟩ := h1
        obtain ⟨h2a, h2b⟩ := h2
        constructor
        · omega
        · by_cases hceq : c0.toNat = a0.toNat
          · right
            have hba : b0.toNat = a0.toNat := by omega
            have hcb : c0.toNat = b0.toNat := by omega
            rcases h1b with h | h
            · omega
            · rcases h2b with h2c | h2c
              · omega
              · exact ih bs cs h h2c
          · left
            exact hceq

theorem strLeP_total (a b : String) : strLeP a b ∨ strLeP b a := by
  by_cases h : clLt b.data a.data = true
  · right
    simp [strLeP, strLeB, clLt_asymm _ _ h]
  · left
    simp only [Bool.not_eq_true] at h
    simp [strLeP, strLeB, h]

theorem strLeP_trans (a b c : String) : strLeP a b → strLeP b c → strLeP a c := by
  intro h1 h2
  simp only [strLeP, strLeB, Bool.not_eq_true'] at h1 h2 ⊢
  exact clLt_nlt_trans a.data b.data c.data h1 h2

instance : IsTotal String strLeP := ⟨strLeP_total⟩

instance : IsTrans String strLeP := ⟨strLeP_trans⟩

theorem sortStrings_sorted (l : List String) : List.Pairwise strLeP (sortStrings l) :=
  List.sorted_insertionSort strLeP l

theorem sortStrings_perm (l : List String) : (sortStrings l).Perm l :=
  List.perm_insertionSort strLeP l

theorem mem_sortStrings {x : String} {l : List String} : x ∈ sortStrings l ↔ x ∈ l :=
  (sortStrings_perm l).mem_iff

/-! Facts about maxNum, the model of Math.max over a list. -/

theorem le_maxNum {x : Nat} {ns : List Nat} (h : x ∈ ns) : x ≤ maxNum ns := by
  induction ns with
  | nil => simp at h
  | cons n ns ih =>
    rcases List.mem_cons.mp h with rfl | h
    · simp [maxNum, Nat.le_max_left]
    · calc x ≤ maxNum ns := ih h
        _ ≤ maxNum (n :: ns) := by simp [maxNum, Nat.le_max_right]

theorem maxNum_le {ns : List Nat} {k : Nat} (h : ∀ x ∈ ns, x ≤ k) : maxNum ns ≤ k := by
  induction ns with
  | nil => simp [maxNum]
  | cons n ns ih =>
    simp only [maxNum, List.foldr_cons]
    exact Nat.max_le.mpr ⟨h n (by simp), ih (fun x hx => h x (by simp [hx]))⟩

theorem maxNum_append (a b : List Nat) :
    maxNum (a ++ b) = Nat.max (maxNum a) (maxNum b) := by
  induction a with
  | nil => simp [maxNum]
  | cons n ns ih =>
    simp only [maxNum, List.foldr_cons, List.cons_append] at ih ⊢
    rw [ih]
    exact (Nat.max_assoc n _ _).symm

theorem maxNum_perm {a b : List Nat} (h : a.Perm b) : maxNum a = maxNum b :=
  Nat.le_antisymm (maxNum_le fun x hx => le_maxNum (h.mem_iff.mp hx))
    (maxNum_le fun x hx => le_maxNum (h.mem_iff.mpr hx))

theorem maxNum_drop {ns : List Nat} {k : Nat} (hp : List.Pairwise (· ≤ ·) ns)
    (hne : ns.drop k ≠ []) : maxNum ns ≤ maxNum (ns.drop k) := by
  induction ns generalizing k with
  | nil => simp at hne
  | cons n ns ih =>
    cases k with
    | zero => simp
    | succ k =>
      rw [List.drop_succ_cons] at hne ⊢
      rcases List.pairwise_cons.mp hp with ⟨hhead, htail⟩
      simp only [maxNum, List.foldr_cons]
      apply Nat.max_le.mpr
      constructor
      · obtain ⟨y, hy⟩ := List.exists_mem_of_ne_nil _ hne
        calc n ≤ y := hhead y (List.mem_of_mem_drop hy)
          _ ≤ maxNum (ns.drop k) := le_maxNum hy
      · exact ih htail hne

/-! Shape facts about report filenames, monotonicity of the parsed report
number along the sort order, and the windowed-maximum lemma. -/

theorem isDigitChar_iff {c : Char} :
    isDigitChar c = true ↔ 48 ≤ c.toNat ∧ c.toNat ≤ 57 := by
  simp [isDigitChar]

theorem reportMatch_shape {s : String} (h : reportMatch s = true) :
    ∃ c0 c1 c2 rest, s.data = c0 :: c1 :: c2 :: '-' :: rest
      ∧ isDigitChar c0 = true ∧ isDigitChar c1 = true ∧ isDigitChar c2 = true := by
  unfold reportMatch at h
  split at h
  next c0 c1 c2 hc rest heq =>
    simp only [Bool.and_eq_true, beq_iff_eq] at h
    obtain ⟨⟨⟨⟨h0, h1⟩, h2⟩, hh⟩, _⟩ := h
    exact ⟨c0, c1, c2, rest, by rw [heq, hh], h0, h1, h2⟩
  next => exact absurd h (by simp)

theorem reportNum_of_shape {s : String} {c0 c1 c2 : Char} {rest : List Char}
    (hdata : s.data = c0 :: c1 :: c2 :: '-' :: rest)
    (h0 : isDigitChar c0 = true) (h1 : isDigitChar c1 = true)
    (h2 : isDigitChar c2 = true) :
    reportNum s = 100 * (c0.toNat - 48) + 10 * (c1.toNat - 48) + (c2.toNat - 48) := by
  unfold reportNum
  rw [hdata]
  simp [h0, h1, h2]

theorem reportNum_le_of_strLe {a b : String} (h : strLeP a b)
    (ha : reportMatch a = true) (hb : reportMatch b = true) :
    reportNum a ≤ reportNum b := by
  obtain ⟨a0, a1, a2, ra, hadata, ha0, ha1, ha2⟩ := reportMatch_shape ha
  obtain ⟨b0, b1, b2, rb, hbdata, hb0, hb1, hb2⟩ := reportMatch_shape hb
  rw [reportNum_of_shape hadata ha0 ha1 ha2, reportNum_of_shape hbdata hb0 hb1 hb2]
  by_contra hlt
  push_neg at hlt
  simp only [strLeP, strLeB, Bool.not_eq_true'] at h
  rw [hbdata, hadata] at h
  obtain ⟨ha0l, ha0r⟩ := isDigitChar_iff.mp ha0
  obtain ⟨ha1l, ha1r⟩ := isDigitChar_iff.mp ha1
  obtain ⟨ha2l, ha2r⟩ := isDigitChar_iff.mp ha2
  obtain ⟨hb0l, hb0r⟩ := isDigitChar_iff.mp hb0
  obtain ⟨hb1l, hb1r⟩ := isDigitChar_iff.mp hb1
  obtain ⟨hb2l, hb2r⟩ := isDigitChar_iff.mp hb2
  have harith : b0.toNat < a0.toNat ∨ (b0.toNat = a0.toNat ∧ (b1.toNat < a1.toNat
      ∨ (b1.toNat = a1.toNat ∧ b2.toNat < a2.toNat))) := by omega
  have hcon : clLt (b0 :: b1 :: b2 :: '-' :: rb) (a0 :: a1 :: a2 :: '-' :: ra) = true := by
    simp only [clLt, Bool.or_eq_true, Bool.and_eq_true, decide_eq_true_eq, beq_iff_eq]
    rcases harith with h1 | ⟨he0, h1⟩
    · exact Or.inl h1
    · refine Or.inr ⟨he0, ?_⟩
      rcases h1 with h2 | ⟨he1, h2⟩
      · exact Or.inl h2
      · exact Or.inr ⟨he1, Or.inl h2⟩
  rw [hcon] at h
  exact absurd h (by simp)

theorem pairwise_reportNum_sorted (l : List String)
    (hall : ∀ x ∈ l, reportMatch x = true) (hs : List.Pairwise strLeP l) :
    List.Pairwise (fun a b => reportNum a ≤ reportNum b) l :=
  hs.imp_of_mem (fun ha hb h => reportNum_le_of_strLe h (hall _ ha) (hall _ hb))

theorem maxNum_window {ns : List Nat} (hp : List.Pairwise (fun a b => a ≤ b) ns)
    (h50 : 50 < ns.length) :
    maxNum (ns.take 20 ++ ns.drop (ns.length - 30)) = maxNum ns := by
  apply Nat.le_antisymm
  · apply maxNum_le
    intro x hx
    rcases List.mem_append.mp hx with hx | hx
    · exact le_maxNum (List.mem_of_mem_take hx)
    · exact le_maxNum (List.mem_of_mem_drop hx)
  · have hne : ns.drop (ns.length - 30) ≠ [] := by
      intro he
      have hlen : (ns.drop (ns.length - 30)).length = 30 := by
        rw [List.length_drop]
        omega
      rw [he] at hlen
      simp at hlen
    calc maxNum ns ≤ maxNum (ns.drop (ns.length - 30)) := maxNum_drop hp hne
      _ ≤ maxNum (ns.take 20 ++ ns.drop (ns.length - 30)) := by
          rw [maxNum_append]
          exact Nat.le_max_right _ _

theorem all_reportMatch_sorted (entries : List String) :
    ∀ x ∈ sortStrings (entries.filter reportMatch), reportMatch x = true :=
  fun x hx => (List.mem_filter.mp (mem_sortStrings.mp hx)).2

theorem findNextReportNumber_eq_unbounded (fs : FS) (td : String) :
    findNextReportNumber fs td = findNextReportNumberUnbounded fs td := by
  unfold findNextReportNumber findNextReportNumberUnbounded getReportFiles
    listReportsUnbounded
  cases hl : fs.taskFiles.lookup td with
  | none => simp
  | some entries =>
    simp only
    by_cases h50 : (sortStrings (entries.filter reportMatch)).length ≤ 50
    · rw [if_pos h50]
    · rw [if_neg h50]
      push_neg at h50
      set l := sortStrings (entries.filter reportMatch) with hl2
      have hlen : (l.take 20 ++ l.drop (l.length - 30)).length = 50 := by
        simp only [List.length_append, List.length_take, List.length_drop]
        omega
      have hne1 : ¬ ((l.take 20 ++ l.drop (l.length - 30)).isEmpty = true) := by
        intro hc
        rw [List.isEmpty_iff.mp hc] at hlen
        simp at hlen
      have hne2 : ¬ (l.isEmpty = true) := by
        intro hc
        rw [List.isEmpty_iff.mp hc] at h50
        simp at h50
      rw [if_neg hne1, if_neg hne2]
      congr 1
      have hp : List.Pairwise (fun a b : Nat => a ≤ b) (l.map reportNum) :=
        List.pairwise_map.mpr
          (pairwise_reportNum_sorted l (all_reportMatch_sorted entries)
            (sortStrings_sorted _))
      have hw := maxNum_window hp (by simpa using h50)
      rw [List.map_append, List.map_take, List.map_drop]
      simpa [List.length_map] using hw

/-! Helper facts about strings, name parsing and the directory catalog. -/

theorem str_ne_empty_iff {s : String} : s ≠ "" ↔ s.data ≠ [] := by
  constructor
  · intro h hc
    exact h (String.ext hc)
  · intro h hc
    rw [hc] at h
    exact h rfl

theorem isPrefixOf_append_self (l r : List Char) : l.isPrefixOf (l ++ r) = true := by
  induction l with
  | nil => simp [List.isPrefixOf]
  | cons a as ih => simp [List.isPrefixOf, ih]

theorem contains_eq_false_of_not_mem {l : List String} {a : String} (h : a ∉ l) :
    l.contains a = false := by
  cases hc : l.contains a with
  | false => rfl
  | true => exact absurd (List.elem_iff.mp hc) h

theorem contains_eq_true_of_mem {l : List String} {a : String} (h : a ∈ l) :
    l.contains a = true := List.elem_iff.mpr h

theorem dateShaped_shape {s : String} (h : dateShaped s = true) :
    ∃ y1 y2 y3 y4 m1 m2 d1 d2,
      s.data = [y1, y2, y3, y4, '-', m1, m2, '-', d1, d2]
      ∧ isDigitChar y1 = true ∧ isDigitChar y2 = true ∧ isDigitChar y3 = true
      ∧ isDigitChar y4 = true ∧ isDigitChar m1 = true ∧ isDigitChar m2 = true
      ∧ isDigitChar d1 = true ∧ isDigitChar d2 = true := by
  unfold dateShaped at h
  split at h
  next y1 y2 y3 y4 h1 m1 m2 h2 d1 d2 heq =>
    simp only [Bool.and_eq_true, beq_iff_eq] at h
    obtain ⟨⟨⟨⟨⟨⟨⟨⟨⟨hy1, hy2⟩, hy3⟩, hy4⟩, hh1⟩, hm1⟩, hm2⟩, hh2⟩, hd1⟩, hd2⟩ := h
    exact ⟨y1, y2, y3, y4, m1, m2, d1, d2, by rw [heq, hh1, hh2], hy1, hy2, hy3, hy4,
      hm1, hm2, hd1, hd2⟩
  next => exact absurd h (by simp)

theorem parse_concat_plain {today label : String} (hd : dateShaped today = true)
    (hl : label ≠ "") (hnl : label.data.all notLineTerm = true) :
    parseTaskDirName (today ++ "-" ++ label) = some (today, label) := by
  obtain ⟨y1, y2, y3, y4, m1, m2, d1, d2, heq, hy1, hy2, hy3, hy4, hm1, hm2, hd1, hd2⟩ :=
    dateShaped_shape hd
  have hdata : (today ++ "-" ++ label).data
      = y1 :: y2 :: y3 :: y4 :: '-' :: m1 :: m2 :: '-' :: d1 :: d2 :: '-' :: label.data := by
    simp [String.data_append, heq]
  have hlb : label.data.isEmpty = false := by
    cases he : label.data with
    | nil => exact absurd (String.ext he) hl
    | cons a as => rfl
  have h45 : ('-' : Char).toNat = 45 := rfl
  unfold parseTaskDirName
  rw [hdata]
  simp only [hy1, hy2, hy3, hy4, hm1, hm2, hd1, hd2, h45, hnl, hlb, Bool.and_true,
    Bool.true_and, Bool.and_self, Bool.not_false, beq_self_eq_true, if_true]
  rw [if_neg (by decide)]
  refine congrArg some (Prod.ext ?_ ?_)
  · exact String.ext (by rw [heq])
  · exact String.ext rfl

theorem parse_concat_letter {today label : String} {c : Char}
    (hd : dateShaped today = true) (hc1 : 98 ≤ c.toNat) (hc2 : c.toNat ≤ 122)
    (hl : label ≠ "") (hnl : label.data.all notLineTerm = true) :
    parseTaskDirName (today.push c ++ "-" ++ label) = some (today.push c, label) := by
  obtain ⟨y1, y2, y3, y4, m1, m2, d1, d2, heq, hy1, hy2, hy3, hy4, hm1, hm2, hd1, hd2⟩ :=
    dateShaped_shape hd
  have hdata : (today.push c ++ "-" ++ label).data
      = y1 :: y2 :: y3 :: y4 :: '-' :: m1 :: m2 :: '-' :: d1 :: d2 :: c :: '-'
        :: label.data := by
    simp [String.data_append, String.data_push, heq]
  have hlb : label.data.isEmpty = false := by
    cases he : label.data with
    | nil => exact absurd (String.ext he) hl
    | cons a as => rfl
  have h45 : ('-' : Char).toNat = 45 := rfl
  unfold parseTaskDirName
  rw [hdata]
  simp only [hy1, hy2, hy3, hy4, hm1, hm2, hd1, hd2, h45, hnl, hlb, Bool.and_true,
    Bool.true_and, Bool.and_self, Bool.not_false, beq_self_eq_true, if_true]
  rw [if_pos (by simp only [Bool.and_eq_true, decide_eq_true_eq]; exact ⟨hc1, hc2⟩)]
  refine congrArg some (Prod.ext ?_ ?_)
  · refine String.ext ?_
    rw [String.data_push, heq]
    rfl
  · exact String.ext rfl

theorem parse_slug_ne_empty {n : String} {p : String × String}
    (h : parseTaskDirName n = some p) : p.2 ≠ "" := by
  unfold parseTaskDirName at h
  split at h
  next y1 y2 y3 y4 h1 m1 m2 h2 d1 d2 rest heq =>
    split at h
    · split at h
      next c rest2 =>
        split at h
        · split at h
          next h3 label =>
            split at h
            next hcond =>
              simp only [Bool.and_eq_true, Bool.not_eq_true', beq_iff_eq] at hcond
              obtain ⟨⟨_, hne⟩, _⟩ := hcond
              obtain rfl := (Option.some_inj.mp h).symm
              simp only []
              rw [str_ne_empty_iff]
              intro hc
              have hc2 : label = [] := hc
              rw [hc2] at hne
              exact absurd hne (by simp)
            next => exact absurd h (by simp)
          next => exact absurd h (by simp)
        · split at h
          · split at h
            next hcond =>
              simp only [Bool.and_eq_true, Bool.not_eq_true'] at hcond
              obtain ⟨hne, _⟩ := hcond
              obtain rfl := (Option.some_inj.mp h).symm
              simp only []
              rw [str_ne_empty_iff]
              intro hc
              have hc2 : rest2 = [] := hc
              rw [hc2] at hne
              exact absurd hne (by simp)
            next => exact absurd h (by simp)
          · exact absurd h (by simp)
      next => exact absurd h (by simp)
    · exact absurd h (by simp)
  next => exact absurd h (by simp)

theorem takeWhile_all {p : Char → Bool} {l : List Char} (h : ∀ c ∈ l, p c = true) :
    l.takeWhile p = l := by
  induction l with
  | nil => rfl
  | cons a as ih =>
    rw [List.takeWhile_cons, if_pos (h a (by simp))]
    rw [ih (fun c hc => h c (by simp [hc]))]

theorem dropWhile_none {p : Char → Bool} {l : List Char} (h : ∀ c ∈ l, p c = false) :
    l.dropWhile p = l := by
  cases l with
  | nil => rfl
  | cons a as =>
    rw [List.dropWhile_cons, if_neg (by simp [h a (by simp)])]

theorem basename_of_no_slash {t : String} (h : ∀ c ∈ t.data, (c == '/') = false) :
    basename t = t := by
  unfold basename
  refine String.ext ?_
  have h1 : t.data.reverse.dropWhile (fun c => c == '/') = t.data.reverse :=
    dropWhile_none (fun c hc => h c (List.mem_reverse.mp hc))
  have h2 : t.data.reverse.takeWhile (fun c => !(c == '/')) = t.data.reverse :=
    takeWhile_all (fun c hc => by rw [h c (List.mem_reverse.mp hc)]; rfl)
  simp only [h1, h2, List.reverse_reverse]

theorem getCurrentTaskDir_of_plain_target {fs : FS} {t : String}
    (hl : fs.currentLink = some t) (h : ∀ c ∈ t.data, (c == '/') = false) :
    getCurrentTaskDir fs = some t := by
  unfold getCurrentTaskDir
  rw [hl]
  simp [basename_of_no_slash h]

theorem mem_getAllTaskDirs {fs : FS} {x : String} :
    x ∈ getAllTaskDirs fs ↔ ∃ e, e ∈ fs.rootEntries ∧ e.isDir = true
      ∧ (parseTaskDirName e.name).isSome = true ∧ e.name = x := by
  unfold getAllTaskDirs
  rw [mem_sortStrings]
  constructor
  · intro h
    obtain ⟨e, he, hex⟩ := List.mem_map.mp h
    obtain ⟨hmem, hcond⟩ := List.mem_filter.mp he
    simp only [Bool.and_eq_true] at hcond
    exact ⟨e, hmem, hcond.1, hcond.2, hex⟩
  · intro ⟨e, hmem, hdir, hsome, hex⟩
    apply List.mem_map.mpr
    refine ⟨e, List.mem_filter.mpr ⟨hmem, ?_⟩, hex⟩
    simp [hdir, hsome]

theorem probeAux_step (allDirs : List String) (today slug : String) (k i : Nat) :
    probeAux allDirs today slug (k + 1) i =
      if allDirs.contains (getDateSuffix today i ++ "-" ++ slug)
      then probeAux allDirs today slug k (i + 1)
      else .ok (getDateSuffix today i ++ "-" ++ slug) := rfl

theorem sortStrings_eq_nil_iff {l : List String} : sortStrings l = [] ↔ l = [] := by
  constructor
  · intro hc
    have hperm := sortStrings_perm l
    rw [hc] at hperm
    exact (hperm.symm).eq_nil
  · intro hc
    rw [hc]
    rfl

instance exceptDecEq {e a : Type} [DecidableEq e] [DecidableEq a] :
    DecidableEq (Except e a) := fun x y =>
  match x, y with
  | .ok v, .ok w =>
    if h : v = w then isTrue (by rw [h])
    else isFalse (by intro hc; injection hc; contradiction)
  | .error v, .error w =>
    if h : v = w then isTrue (by rw [h])
    else isFalse (by intro hc; injection hc; contradiction)
  | .ok _, .error _ => isFalse (by intro hc; exact Except.noConfusion hc)
  | .error _, .ok _ => isFalse (by intro hc; exact Except.noConfusion hc)

/-! The claims. -/

/-- Example task directory of claim C1: reports 001-a.md, 002-b.md and
42-c.md. -/
def fsC1 : FS :=
  ⟨[⟨"2025-10-01-t", true⟩], none,
    [("2025-10-01-t", ["001-a.md", "002-b.md", "42-c.md"])]⟩

/-- C1 counterexample: the catalog regex requires exactly three leading
digits, so 42-c.md is not in the catalog and next_report_number returns
3 on the claimed example, not 43. -/
theorem c1_counterexample :
    findNextReportNumber fsC1 "2025-10-01-t" = 3
    ∧ findNextReportNumber fsC1 "2025-10-01-t" ≠ 43
    ∧ "42-c.md" ∉ getReportFiles fsC1 "2025-10-01-t" := by decide

/-- C1 (amended): the report catalog matches exactly the filenames with a
three-digit run before the dash; next_report_number returns the maximum of
the parsed three-digit runs plus 1 (1 when no file matches); in particular
for the directory with 001-a.md, 002-b.md and 42-c.md it returns 3, with
42-c.md excluded (while 042-c.md would match). -/
theorem c1_next_is_max_plus_one :
    (∀ (fs : FS) (td : String) (es : List String), fs.taskFiles.lookup td = some es →
        findNextReportNumber fs td =
          if (es.filter reportMatch).isEmpty then 1
          else maxNum ((es.filter reportMatch).map reportNum) + 1)
    ∧ reportMatch "42-c.md" = false
    ∧ reportMatch "042-c.md" = true
    ∧ getReportFiles fsC1 "2025-10-01-t" = ["001-a.md", "002-b.md"]
    ∧ findNextReportNumber fsC1 "2025-10-01-t" = 3 := by
  refine ⟨?_, by decide, by decide, by decide, by decide⟩
  intro fs td es hl
  rw [findNextReportNumber_eq_unbounded]
  unfold findNextReportNumberUnbounded listReportsUnbounded
  rw [hl]
  simp only
  have hperm := sortStrings_perm (es.filter reportMatch)
  have hemp : (sortStrings (es.filter reportMatch)).isEmpty
      = (es.filter reportMatch).isEmpty := by
    by_cases he : es.filter reportMatch = []
    · rw [he]
      rfl
    · have h2 : sortStrings (es.filter reportMatch) ≠ [] :=
        fun hc => he (sortStrings_eq_nil_iff.mp hc)
      rw [List.isEmpty_eq_false.mpr h2, List.isEmpty_eq_false.mpr he]
  rw [hemp]
  by_cases he : (es.filter reportMatch).isEmpty = true
  · rw [if_pos he, if_pos he]
  · rw [if_neg he, if_neg he]
    rw [maxNum_perm (hperm.map reportNum)]

/-- A task root holding all 26 directories of 2026-10-11 for slug x. -/
def fsFull26 : FS :=
  ⟨(List.range 26).map (fun i => ⟨getDateSuffix "2026-10-11" i ++ "-x", true⟩),
    none, []⟩

/-- C2 counterexample: disambiguator 25 serializes to the bare letter z, not
to z plus a zero-padded ordinal, and once all 26 same-day names exist the
allocator fails with its max-26 business error instead of probing on. -/
theorem c2_counterexample :
    getDateSuffix "2026-10-11" 25 = "2026-10-11z"
    ∧ getDateSuffix "2026-10-11" 25 ≠ "2026-10-11" ++ "z" ++ "027"
    ∧ findNextTaskDirName fsFull26 "2026-10-11" "x"
        = .error "Too many tasks for today (max 26)" := by decide

/-- C2 (amended): disambiguator 0 maps to the bare date and disambiguators
1 through 25 map to the date plus the single letter with character code
97 + i (b through z); there is no escape form beyond z, the probe space of
start_new_task is 26 names, and exhausting them is a business-rule error
("Too many tasks for today (max 26)"), not merely a runaway-loop guard. -/
theorem c2_letter_suffixes_and_cap :
    (∀ (today : String) (i : Nat), 1 ≤ i → i ≤ 25 →
        getDateSuffix today i = today.push (Char.ofNat (97 + i)))
    ∧ getDateSuffix "2026-10-11" 0 = "2026-10-11"
    ∧ getDateSuffix "2026-10-11" 1 = "2026-10-11b"
    ∧ getDateSuffix "2026-10-11" 25 = "2026-10-11z"
    ∧ start_new_task fsFull26 "2026-10-11" "x"
        = (fsFull26, .error "Too many tasks for today (max 26)") := by
  refine ⟨?_, by decide, by decide, by decide, by decide⟩
  intro today i h1 h2
  unfold getDateSuffix
  rw [if_neg (by omega)]

/-- Witness for the amended C2, at today 2026-10-11 and disambiguator 2. -/
theorem c2_witness :
    getDateSuffix "2026-10-11" 2 = ("2026-10-11").push (Char.ofNat 99) :=
  c2_letter_suffixes_and_cap.1 "2026-10-11" 2 (by decide) (by decide)

/-- C4: next_report_number is unaffected by the 50-item bounded window — on
every state it equals the value computed from the full untruncated report
listing. -/
theorem c4_window_does_not_change_next_number :
    ∀ (fs : FS) (taskDir : String),
      findNextReportNumber fs taskDir = findNextReportNumberUnbounded fs taskDir :=
  findNextReportNumber_eq_unbounded

/-- 100 report files named 001-file.md through 100-file.md. -/
def files100 : List String := (List.range 100).map (fun i => padStart3 (i + 1) ++ "-file.md")

/-- A task directory holding the 100 report files. -/
def fs100 : FS := ⟨[⟨"2025-10-01-t", true⟩], none, [("2025-10-01-t", files100)]⟩

/-- Reports 001 through 020 followed by 071 through 100. -/
def expected50 : List String :=
  (List.range 20).map (fun i => padStart3 (i + 1) ++ "-file.md")
    ++ (List.range 30).map (fun i => padStart3 (i + 71) ++ "-file.md")

/-- C6: the report listing applies the bounded-window policy to the filtered
sorted sequence — returned whole at up to 50 elements, else first 20 plus
last 30 (exactly 50, order preserved); for reports 001..100 it returns
001..020 followed by 071..100. -/
theorem c6_bounded_window_policy :
    (∀ (fs : FS) (td : String),
        getReportFiles fs td = windowPolicy (listReportsUnbounded fs td)
        ∧ (50 < (listReportsUnbounded fs td).length → (getReportFiles fs td).length = 50))
    ∧ getReportFiles fs100 "2025-10-01-t" = expected50
    ∧ (getReportFiles fs100 "2025-10-01-t").length = 50 := by
  refine ⟨?_, by decide, by decide⟩
  intro fs td
  have h1 : getReportFiles fs td = windowPolicy (listReportsUnbounded fs td) := by
    unfold getReportFiles windowPolicy listReportsUnbounded
    cases hl : fs.taskFiles.lookup td with
    | none => simp
    | some entries => rfl
  refine ⟨h1, ?_⟩
  intro h50
  rw [h1]
  unfold windowPolicy
  rw [if_neg (by omega)]
  simp only [List.length_append, List.length_take, List.length_drop]
  omega

/-- Witness for C6 at the 100-report directory: the window case applies and
yields exactly 50 entries. -/
theorem c6_witness : (getReportFiles fs100 "2025-10-01-t").length = 50 :=
  (c6_bounded_window_policy.1 fs100 "2025-10-01-t").2 (by decide)

theorem getTaskInfo_some (fs : FS) (td : String) :
    getTaskInfo fs (some td) =
      if td = "" then none
      else
        match parseTaskDirName td with
        | none => none
        | some p => some ⟨p.2, "_tasks/" ++ td, getReportFiles fs td⟩ := rfl

/-- A current pointer to 2025-10-01-x while no directory at all exists. -/
def fsDangling : FS := ⟨[], some "2025-10-01-x", []⟩

/-- C3 counterexample: with the current pointer aimed at a deleted (but
well-formed) directory, current_task returns a TaskInfo with an empty
report list — not the "no current task" result the claim requires. -/
theorem c3_counterexample :
    current_task fsDangling = some ⟨"x", "_tasks/2025-10-01-x", []⟩
    ∧ current_task fsDangling ≠ none := by decide

/-- C3 (amended): when the pointer target's base name does not parse as a
task directory name, current_task returns the "no current task" result;
but when the base name parses and the directory is deleted, current_task
returns a TaskInfo with that slug and an empty report list (no error in
either case). -/
theorem c3_dangling_pointer_behavior :
    ∀ (fs : FS) (t : String), fs.currentLink = some t →
      (∀ c ∈ t.data, (c == '/') = false) →
      ((parseTaskDirName t = none → current_task fs = none)
        ∧ ∀ p, parseTaskDirName t = some p → fs.taskFiles.lookup t = none →
            current_task fs = some ⟨p.2, "_tasks/" ++ t, []⟩) := by
  intro fs t hl hns
  have hcur : getCurrentTaskDir fs = some t := getCurrentTaskDir_of_plain_target hl hns
  constructor
  · intro hp
    unfold current_task
    rw [hcur, getTaskInfo_some]
    by_cases ht : t = ""
    · rw [if_pos ht]
    · rw [if_neg ht, hp]
  · intro p hp hnof
    unfold current_task
    rw [hcur, getTaskInfo_some]
    have ht : ¬ (t = "") := by
      intro hc
      rw [hc] at hp
      rw [show parseTaskDirName "" = none from rfl] at hp
      exact Option.noConfusion hp
    rw [if_neg ht, hp]
    show some (TaskInfo.mk p.2 ("_tasks/" ++ t) (getReportFiles fs t))
      = some (TaskInfo.mk p.2 ("_tasks/" ++ t) [])
    have hrf : getReportFiles fs t = [] := by
      unfold getReportFiles
      rw [hnof]
    rw [hrf]

/-- Witness for the amended C3: a pointer whose target does not parse yields
the no-current-task result, and the dangling well-formed pointer of the
counterexample state yields the empty TaskInfo. -/
theorem c3_witness :
    current_task (⟨[], some "junk", []⟩ : FS) = none
    ∧ current_task fsDangling = some ⟨"x", "_tasks/2025-10-01-x", []⟩ :=
  ⟨(c3_dangling_pointer_behavior ⟨[], some "junk", []⟩ "junk" rfl (by decide)).1
      (by decide),
    (c3_dangling_pointer_behavior fsDangling "2025-10-01-x" rfl (by decide)).2
      ("2025-10-01", "x") (by decide) rfl⟩

/-- C7: switching to a label that no existing task directory carries is an
error that leaves the whole filesystem state — in particular the current
pointer — unchanged and creates nothing. -/
theorem c7_switch_task_not_found :
    ∀ (fs : FS) (slug : String), slug ≠ "" →
      ((getAllTaskDirs fs).all (fun d =>
          match parseTaskDirName d with
          | some p => !(p.2 == slug)
          | none => true)) = true →
      switch_task fs slug = (fs, .error ("Task not found: " ++ slug)) := by
  intro fs slug h1 h2
  unfold switch_task
  rw [if_neg h1]
  have hfind : findTaskDirBySlug fs slug = none := by
    unfold findTaskDirBySlug
    rw [List.find?_eq_none]
    intro d hd hc
    have hall := List.all_eq_true.mp h2 d (List.mem_reverse.mp hd)
    cases hp : parseTaskDirName d with
    | none =>
      rw [hp] at hc
      simp at hc
    | some p =>
      rw [hp] at hall hc
      simp only [Bool.not_eq_true', beq_eq_false_iff_ne, ne_eq] at hall
      simp only [beq_iff_eq] at hc
      exact hall hc
  rw [hfind]

/-- Witness for C7: the example root has only slug t, and switching to zzz
fails without touching the state. -/
theorem c7_witness :
    switch_task fsC1 "zzz" = (fsC1, .error ("Task not found: " ++ "zzz")) :=
  c7_switch_task_not_found fsC1 "zzz" (by decide) (by decide)

theorem isDigitChar_digitChar {m : Nat} (h : m < 10) :
    isDigitChar (digitChar m) = true := by
  interval_cases m <;> decide

theorem dateShaped_formatDate (dt : Date) : dateShaped (formatDate dt) = true := by
  have e1 := isDigitChar_digitChar (m := dt.year / 1000 % 10) (Nat.mod_lt _ (by norm_num))
  have e2 := isDigitChar_digitChar (m := dt.year / 100 % 10) (Nat.mod_lt _ (by norm_num))
  have e3 := isDigitChar_digitChar (m := dt.year / 10 % 10) (Nat.mod_lt _ (by norm_num))
  have e4 := isDigitChar_digitChar (m := dt.year % 10) (Nat.mod_lt _ (by norm_num))
  have e5 := isDigitChar_digitChar (m := dt.month / 10 % 10) (Nat.mod_lt _ (by norm_num))
  have e6 := isDigitChar_digitChar (m := dt.month % 10) (Nat.mod_lt _ (by norm_num))
  have e7 := isDigitChar_digitChar (m := dt.day / 10 % 10) (Nat.mod_lt _ (by norm_num))
  have e8 := isDigitChar_digitChar (m := dt.day % 10) (Nat.mod_lt _ (by norm_num))
  unfold dateShaped formatDate pad4 pad2
  simp [e1, e2, e3, e4, e5, e6, e7, e8]

theorem charOfNat_toNat_letter {i : Nat} (h1 : 1 ≤ i) (h2 : i ≤ 25) :
    (Char.ofNat (97 + i)).toNat = 97 + i := by
  interval_cases i <;> decide

/-- C8: the round-trip law — for every date, every disambiguator the
allocator can produce (0 through 25), and every non-empty label made of
dot-matchable characters, parsing the formatted directory name returns
exactly the date prefix and the label. -/
theorem c8_parse_format_roundtrip :
    ∀ (dt : Date) (i : Nat) (label : String), i ≤ 25 → label ≠ "" →
      label.data.all notLineTerm = true →
      parseTaskDirName (getDateSuffix (formatDate dt) i ++ "-" ++ label)
        = some (getDateSuffix (formatDate dt) i, label) := by
  intro dt i label hi hl hnl
  have hd := dateShaped_formatDate dt
  cases i with
  | zero => exact parse_concat_plain hd hl hnl
  | succ j =>
    have hstep : getDateSuffix (formatDate dt) (j + 1)
        = (formatDate dt).push (Char.ofNat (97 + (j + 1))) := by
      unfold getDateSuffix
      rw [if_neg (by omega)]
    have htn := charOfNat_toNat_letter (i := j + 1) (by omega) hi
    rw [hstep]
    exact parse_concat_letter hd (by omega) (by omega) hl hnl

/-- Witness for C8 at date 2026-10-11, disambiguator 1, label my-task. -/
theorem c8_witness :
    parseTaskDirName (getDateSuffix (formatDate ⟨2026, 10, 11⟩) 1 ++ "-" ++ "my-task")
      = some (getDateSuffix (formatDate ⟨2026, 10, 11⟩) 1, "my-task")
    ∧ getDateSuffix (formatDate ⟨2026, 10, 11⟩) 1 = "2026-10-11b" :=
  ⟨c8_parse_format_roundtrip ⟨2026, 10, 11⟩ 1 "my-task" (by decide) (by decide)
      (by decide),
    by decide⟩

/-- Today for the C9 scenario: 2026-10-11. -/
def today0 : Date := ⟨2026, 10, 11⟩

/-- A root with one task exactly 40 days old and one 10 days old. -/
def fsR : FS :=
  ⟨[⟨"2026-09-01-old-task", true⟩, ⟨"2026-10-01-recent-task", true⟩], none, []⟩

/-- C9: list_recent_tasks keeps exactly the parsed task directories whose
stripped date prefix is at or after today minus 30 days, mapping them to
labels in catalog order; a task dated exactly 40 days ago is excluded and
one dated 10 days ago is included. -/
theorem c9_thirty_day_window :
    (∀ (fs : FS) (today : Date),
        list_recent_tasks fs today = (getAllTaskDirs fs).filterMap (fun n =>
          match parseTaskDirName n with
          | some p =>
            if strLeB (formatDate (subDays today 30)) (stripDis p.1) = true then some p.2
            else none
          | none => none))
    ∧ formatDate (subDays today0 40) = "2026-09-01"
    ∧ formatDate (subDays today0 10) = "2026-10-01"
    ∧ formatDate (subDays today0 30) = "2026-09-11"
    ∧ "2026-09-01-old-task" ∈ getAllTaskDirs fsR
    ∧ list_recent_tasks fsR today0 = ["recent-task"]
    ∧ "old-task" ∉ list_recent_tasks fsR today0 := by
  refine ⟨?_, by decide, by decide, by decide, by decide, by decide, by decide⟩
  intro fs today
  unfold list_recent_tasks getRecentTaskDirs
  simp only
  generalize formatDate (subDays today 30) = cut
  generalize getAllTaskDirs fs = l
  induction l with
  | nil => rfl
  | cons d ds ih =>
    cases hp : parseTaskDirName d with
    | none =>
      simp only [List.filter_cons, List.filterMap_cons, hp]
      exact ih
    | some p =>
      have hne := parse_slug_ne_empty hp
      have hbe : (p.2 == "") = false := beq_eq_false_iff_ne.mpr hne
      by_cases hle : strLeB cut (stripDis p.1) = true
      · simp only [List.filter_cons, List.filterMap_cons, hp, hle, if_true,
          Option.map_some, Option.map_some', hbe, Bool.not_false]
        rw [ih]
      · simp only [List.filter_cons, List.filterMap_cons, hp, hle]
        simp only [Bool.false_eq_true, if_false]
        exact ih

theorem not_mem_allDirs_of_fresh {fs : FS} {today s : String}
    (hfresh : ∀ e ∈ fs.rootEntries, today.data.isPrefixOf e.name.data = false)
    (hpre : today.data.isPrefixOf s.data = true) : s ∉ getAllTaskDirs fs := by
  intro hc
  obtain ⟨e, hmem, _, _, hname⟩ := mem_getAllTaskDirs.mp hc
  have hf := hfresh e hmem
  rw [hname, hpre] at hf
  simp at hf

theorem data_cand_plain (today : String) :
    (today ++ "-" ++ "x").data = today.data ++ (['-'] ++ ['x']) := by
  simp [String.data_append]

theorem data_cand_letter (today : String) :
    (today.push 'b' ++ "-" ++ "x").data = today.data ++ (['b'] ++ (['-'] ++ ['x'])) := by
  simp [String.data_push, String.data_append]

theorem getReportFiles_of_lookup_nil {fs : FS} {td : String}
    (h : fs.taskFiles.lookup td = some []) : getReportFiles fs td = [] := by
  unfold getReportFiles
  rw [h]
  rfl

theorem getTaskInfo_computed {fs : FS} {td : String} {p : String × String}
    (hne : ¬ (td = "")) (hp : parseTaskDirName td = some p)
    (hrf : getReportFiles fs td = []) :
    getTaskInfo fs (some td) = some ⟨p.2, "_tasks/" ++ td, []⟩ := by
  rw [getTaskInfo_some, if_neg hne, hp]
  show some (TaskInfo.mk p.2 ("_tasks/" ++ td) (getReportFiles fs td)) = _
  rw [hrf]

theorem start_new_task_ok (fs : FS) (today slug name : String) (fs1 : FS)
    (h1 : ¬ (slug = "")) (h2 : findNextTaskDirName fs today slug = .ok name)
    (h3 : mkdirTask fs name = .ok fs1) :
    start_new_task fs today slug =
      (updateCurrentSymlink fs1 name,
        .ok (getTaskInfo (updateCurrentSymlink fs1 name) (some name))) := by
  unfold start_new_task
  rw [if_neg h1, h2]
  simp only [h3]

/-- C5: starting from a root with no entry of the given (date-shaped) day,
two consecutive start_new_task calls with label x create the directories
date-x and dateb-x — differing only in the disambiguator letter — and the
current pointer ends at the second one. -/
theorem c5_same_label_twice_same_day (fs : FS) (today : String)
    (hdate : dateShaped today = true)
    (hfresh : ∀ e ∈ fs.rootEntries, today.data.isPrefixOf e.name.data = false) :
    ∃ fs1 info1 fs2 info2,
      start_new_task fs today "x" = (fs1, .ok (some info1))
      ∧ start_new_task fs1 today "x" = (fs2, .ok (some info2))
      ∧ info1.reports_dir = "_tasks/" ++ (today ++ "-x")
      ∧ info2.reports_dir = "_tasks/" ++ (today ++ "b-x")
      ∧ fs1.currentLink = some (today ++ "-x")
      ∧ fs2.currentLink = some (today ++ "b-x") := by
  have hpre1 : today.data.isPrefixOf (today ++ "-" ++ "x").data = true := by
    rw [data_cand_plain]
    exact isPrefixOf_append_self _ _
  have hpre2 : today.data.isPrefixOf (today.push 'b' ++ "-" ++ "x").data = true := by
    rw [data_cand_letter]
    exact isPrefixOf_append_self _ _
  have hparse1 : parseTaskDirName (today ++ "-" ++ "x") = some (today, "x") :=
    parse_concat_plain hdate (by decide) (by decide)
  have hparse2 : parseTaskDirName (today.push 'b' ++ "-" ++ "x")
      = some (today.push 'b', "x") :=
    parse_concat_letter hdate (by decide) (by decide) (by decide) (by decide)
  have hne12 : ¬ (today ++ "-" ++ "x" = today.push 'b' ++ "-" ++ "x") := by
    intro hc
    have hdc : (today ++ "-" ++ "x").data = (today.push 'b' ++ "-" ++ "x").data := by
      rw [hc]
    rw [data_cand_plain, data_cand_letter] at hdc
    have hcc := List.append_cancel_left hdc
    simp at hcc
  have hc1ne : ¬ (today ++ "-" ++ "x" = "") := by
    intro hc
    have hdc : (today ++ "-" ++ "x").data = [] := by rw [hc]
    rw [data_cand_plain] at hdc
    simp at hdc
  have hc2ne : ¬ (today.push 'b' ++ "-" ++ "x" = "") := by
    intro hc
    have hdc : (today.push 'b' ++ "-" ++ "x").data = [] := by rw [hc]
    rw [data_cand_letter] at hdc
    simp at hdc
  have hnot1 : (today ++ "-" ++ "x") ∉ getAllTaskDirs fs :=
    not_mem_allDirs_of_fresh hfresh hpre1
  have hname1 : findNextTaskDirName fs today "x" = .ok (today ++ "-" ++ "x") := by
    unfold findNextTaskDirName
    rw [show (26 : Nat) = 25 + 1 from rfl, probeAux_step,
      show getDateSuffix today 0 = today from rfl]
    rw [if_neg (by rw [contains_eq_false_of_not_mem hnot1]; simp)]
  have hfind1 : fs.rootEntries.find?
      (fun e => e.name == (today ++ "-" ++ "x")) = none := by
    rw [List.find?_eq_none]
    intro e he hc
    simp only [beq_iff_eq] at hc
    have hf := hfresh e he
    rw [hc, hpre1] at hf
    simp at hf
  have hmk1 : mkdirTask fs (today ++ "-" ++ "x")
      = .ok ⟨fs.rootEntries ++ [⟨today ++ "-" ++ "x", true⟩], fs.currentLink,
          (today ++ "-" ++ "x", []) :: fs.taskFiles⟩ := by
    unfold mkdirTask
    rw [hfind1]
  have hrf1 : getReportFiles
      (⟨fs.rootEntries ++ [⟨today ++ "-" ++ "x", true⟩], some (today ++ "-" ++ "x"),
        (today ++ "-" ++ "x", []) :: fs.taskFiles⟩ : FS) (today ++ "-" ++ "x") = [] := by
    refine getReportFiles_of_lookup_nil ?_
    show List.lookup (today ++ "-" ++ "x")
      ((today ++ "-" ++ "x", []) :: fs.taskFiles) = some []
    rw [List.lookup_cons]
    simp
  have hti1 : getTaskInfo
      (⟨fs.rootEntries ++ [⟨today ++ "-" ++ "x", true⟩], some (today ++ "-" ++ "x"),
        (today ++ "-" ++ "x", []) :: fs.taskFiles⟩ : FS) (some (today ++ "-" ++ "x"))
      = some ⟨"x", "_tasks/" ++ (today ++ "-" ++ "x"), []⟩ :=
    getTaskInfo_computed hc1ne hparse1 hrf1
  refine ⟨⟨fs.rootEntries ++ [⟨today ++ "-" ++ "x", true⟩], some (today ++ "-" ++ "x"),
      (today ++ "-" ++ "x", []) :: fs.taskFiles⟩,
    ⟨"x", "_tasks/" ++ (today ++ "-" ++ "x"), []⟩,
    ⟨(fs.rootEntries ++ [⟨today ++ "-" ++ "x", true⟩])
        ++ [⟨today.push 'b' ++ "-" ++ "x", true⟩],
      some (today.push 'b' ++ "-" ++ "x"),
      (today.push 'b' ++ "-" ++ "x", []) :: (today ++ "-" ++ "x", []) :: fs.taskFiles⟩,
    ⟨"x", "_tasks/" ++ (today.push 'b' ++ "-" ++ "x"), []⟩, ?_, ?_, ?_, ?_, ?_, ?_⟩
  · rw [start_new_task_ok fs today "x" (today ++ "-" ++ "x")
      ⟨fs.rootEntries ++ [⟨today ++ "-" ++ "x", true⟩], fs.currentLink,
        (today ++ "-" ++ "x", []) :: fs.taskFiles⟩ (by decide) hname1 hmk1]
    show (_, Except.ok (getTaskInfo
      (⟨fs.rootEntries ++ [⟨today ++ "-" ++ "x", true⟩], some (today ++ "-" ++ "x"),
        (today ++ "-" ++ "x", []) :: fs.taskFiles⟩ : FS) (some (today ++ "-" ++ "x")))) = _
    rw [hti1]
    rfl
  · have hmem1 : (today ++ "-" ++ "x") ∈ getAllTaskDirs
        (⟨fs.rootEntries ++ [⟨today ++ "-" ++ "x", true⟩], some (today ++ "-" ++ "x"),
          (today ++ "-" ++ "x", []) :: fs.taskFiles⟩ : FS) := by
      apply mem_getAllTaskDirs.mpr
      refine ⟨DirEnt.mk (today ++ "-" ++ "x") true, ?_, rfl, ?_, rfl⟩
      · simp
      · rw [hparse1]
        rfl
    have hnot2 : (today.push 'b' ++ "-" ++ "x") ∉ getAllTaskDirs
        (⟨fs.rootEntries ++ [⟨today ++ "-" ++ "x", true⟩], some (today ++ "-" ++ "x"),
          (today ++ "-" ++ "x", []) :: fs.taskFiles⟩ : FS) := by
      intro hc
      obtain ⟨e, hmem, _, _, hname⟩ := mem_getAllTaskDirs.mp hc
      rcases List.mem_append.mp hmem with he | he
      · have hf := hfresh e he
        rw [hname, hpre2] at hf
        simp at hf
      · have he2 : e = DirEnt.mk (today ++ "-" ++ "x") true := by simpa using he
        rw [he2] at hname
        exact hne12 hname
    have hname2 : findNextTaskDirName
        (⟨fs.rootEntries ++ [⟨today ++ "-" ++ "x", true⟩], some (today ++ "-" ++ "x"),
          (today ++ "-" ++ "x", []) :: fs.taskFiles⟩ : FS) today "x"
        = .ok (today.push 'b' ++ "-" ++ "x") := by
      unfold findNextTaskDirName
      rw [show (26 : Nat) = 25 + 1 from rfl, probeAux_step,
        show getDateSuffix today 0 = today from rfl]
      rw [if_pos (contains_eq_true_of_mem hmem1)]
      rw [show (25 : Nat) = 24 + 1 from rfl, probeAux_step,
        show getDateSuffix today 1 = today.push (Char.ofNat 98) from rfl,
        show (Char.ofNat 98 : Char) = 'b' from by decide]
      rw [if_neg (by rw [contains_eq_false_of_not_mem hnot2]; simp)]
    have hfind2 : (fs.rootEntries ++ [DirEnt.mk (today ++ "-" ++ "x") true]).find?
        (fun e => e.name == (today.push 'b' ++ "-" ++ "x")) = none := by
      rw [List.find?_eq_none]
      intro e he hc
      simp only [beq_iff_eq] at hc
      rcases List.mem_append.mp he with he2 | he2
      · have hf := hfresh e he2
        rw [hc, hpre2] at hf
        simp at hf
      · have he3 : e = DirEnt.mk (today ++ "-" ++ "x") true := by simpa using he2
        rw [he3] at hc
        exact hne12 hc
    have hmk2 : mkdirTask
        (⟨fs.rootEntries ++ [⟨today ++ "-" ++ "x", true⟩], some (today ++ "-" ++ "x"),
          (today ++ "-" ++ "x", []) :: fs.taskFiles⟩ : FS) (today.push 'b' ++ "-" ++ "x")
        = .ok ⟨(fs.rootEntries ++ [⟨today ++ "-" ++ "x", true⟩])
              ++ [⟨today.push 'b' ++ "-" ++ "x", true⟩], some (today ++ "-" ++ "x"),
            (today.push 'b' ++ "-" ++ "x", []) :: (today ++ "-" ++ "x", [])
              :: fs.taskFiles⟩ := by
      unfold mkdirTask
      rw [hfind2]
    have hrf2 : getReportFiles
        (⟨(fs.rootEntries ++ [⟨today ++ "-" ++ "x", true⟩])
            ++ [⟨today.push 'b' ++ "-" ++ "x", true⟩],
          some (today.push 'b' ++ "-" ++ "x"),
          (today.push 'b' ++ "-" ++ "x", []) :: (today ++ "-" ++ "x", [])
            :: fs.taskFiles⟩ : FS) (today.push 'b' ++ "-" ++ "x") = [] := by
      refine getReportFiles_of_lookup_nil ?_
      show List.lookup (today.push 'b' ++ "-" ++ "x")
        ((today.push 'b' ++ "-" ++ "x", [])
          :: (today ++ "-" ++ "x", []) :: fs.taskFiles) = some []
      rw [List.lookup_cons]
      simp
    have hti2 : getTaskInfo
        (⟨(fs.rootEntries ++ [⟨today ++ "-" ++ "x", true⟩])
            ++ [⟨today.push 'b' ++ "-" ++ "x", true⟩],
          some (today.push 'b' ++ "-" ++ "x"),
          (today.push 'b' ++ "-" ++ "x", []) :: (today ++ "-" ++ "x", [])
            :: fs.taskFiles⟩ : FS) (some (today.push 'b' ++ "-" ++ "x"))
        = some ⟨"x", "_tasks/" ++ (today.push 'b' ++ "-" ++ "x"), []⟩ :=
      getTaskInfo_computed hc2ne hparse2 hrf2
    rw [start_new_task_ok _ today "x" (today.push 'b' ++ "-" ++ "x")
      ⟨(fs.rootEntries ++ [⟨today ++ "-" ++ "x", true⟩])
          ++ [⟨today.push 'b' ++ "-" ++ "x", true⟩], some (today ++ "-" ++ "x"),
        (today.push 'b' ++ "-" ++ "x", []) :: (today ++ "-" ++ "x", []) :: fs.taskFiles⟩
      (by decide) hname2 hmk2]
    show (_, Except.ok (getTaskInfo
      (⟨(fs.rootEntries ++ [⟨today ++ "-" ++ "x", true⟩])
          ++ [⟨today.push 'b' ++ "-" ++ "x", true⟩],
        some (today.push 'b' ++ "-" ++ "x"),
        (today.push 'b' ++ "-" ++ "x", []) :: (today ++ "-" ++ "x", [])
          :: fs.taskFiles⟩ : FS) (some (today.push 'b' ++ "-" ++ "x")))) = _
    rw [hti2]
    rfl
  · show "_tasks/" ++ (today ++ "-" ++ "x") = "_tasks/" ++ (today ++ "-x")
    refine String.ext ?_
    simp [String.data_append]
  · show "_tasks/" ++ (today.push 'b' ++ "-" ++ "x") = "_tasks/" ++ (today ++ "b-x")
    refine String.ext ?_
    simp [String.data_append, String.data_push]
  · show some (today ++ "-" ++ "x") = some (today ++ "-x")
    refine congrArg some (String.ext ?_)
    simp [String.data_append]
  · show some (today.push 'b' ++ "-" ++ "x") = some (today ++ "b-x")
    refine congrArg some (String.ext ?_)
    simp [String.data_append, String.data_push]

/-- Witness for C5: from an empty root on 2026-10-11 the two calls produce
2026-10-11-x and 2026-10-11b-x, with current at the second. -/
theorem c5_witness :
    ∃ fs1 info1 fs2 info2,
      start_new_task ⟨[], none, []⟩ "2026-10-11" "x" = (fs1, .ok (some info1))
      ∧ start_new_task fs1 "2026-10-11" "x" = (fs2, .ok (some info2))
      ∧ info1.reports_dir = "_tasks/" ++ ("2026-10-11" ++ "-x")
      ∧ info2.reports_dir = "_tasks/" ++ ("2026-10-11" ++ "b-x")
      ∧ fs1.currentLink = some ("2026-10-11" ++ "-x")
      ∧ fs2.currentLink = some ("2026-10-11" ++ "b-x") :=
  c5_same_label_twice_same_day ⟨[], none, []⟩ "2026-10-11" (by decide)
    (by intro e he; simp at he)

theorem decCharsAux_small {f n : Nat} (h : n < 10) :
    decCharsAux (f + 1) n = [digitChar n] := by
  simp [decCharsAux, h]

theorem decCharsAux_big {f n : Nat} (h : ¬ (n < 10)) :
    decCharsAux (f + 1) n = decCharsAux f (n / 10) ++ [digitChar (n % 10)] := by
  simp [decCharsAux, h]

theorem decChars_lt10 {n : Nat} (h : n < 10) : decChars n = [digitChar n] := by
  unfold decChars
  exact decCharsAux_small h

theorem decChars_lt100 {n : Nat} (h1 : 10 ≤ n) (h2 : n < 100) :
    decChars n = [digitChar (n / 10), digitChar (n % 10)] := by
  unfold decChars
  rw [show n + 1 = (n - 1) + 1 + 1 from by omega]
  rw [decCharsAux_big (by omega)]
  rw [decCharsAux_small (by omega)]
  rfl

theorem decChars_lt1000 {n : Nat} (h1 : 100 ≤ n) (h2 : n < 1000) :
    decChars n = [digitChar (n / 100), digitChar (n / 10 % 10), digitChar (n % 10)] := by
  unfold decChars
  rw [show n + 1 = (n - 2) + 1 + 1 + 1 from by omega]
  rw [decCharsAux_big (by omega)]
  rw [decCharsAux_big (by omega)]
  rw [decCharsAux_small (by omega)]
  rw [show n / 10 / 10 = n / 100 from by rw [Nat.div_div_eq_div_mul]]
  rfl

theorem padStart3_eval {n : Nat} (h : n ≤ 999) :
    padStart3 n
      = ⟨[digitChar (n / 100 % 10), digitChar (n / 10 % 10), digitChar (n % 10)]⟩ := by
  unfold padStart3
  by_cases h10 : n < 10
  · rw [decChars_lt10 h10]
    rw [show n / 100 % 10 = 0 from by omega, show n / 10 % 10 = 0 from by omega,
      show n % 10 = n from by omega]
    rfl
  · by_cases h100 : n < 100
    · rw [decChars_lt100 (by omega) h100]
      rw [show n / 100 % 10 = 0 from by omega, show n / 10 % 10 = n / 10 from by omega]
      rfl
    · rw [decChars_lt1000 (by omega) (by omega)]
      rw [show n / 100 % 10 = n / 100 from by omega]
      rfl

theorem digitChar_toNat {k : Nat} (h : k < 10) : (digitChar k).toNat = 48 + k := by
  interval_cases k <;> decide

theorem data_report_name {n : Nat} (h : n ≤ 999) (suffix : String) :
    (padStart3 n ++ "-" ++ suffix ++ ".md").data
      = digitChar (n / 100 % 10) :: digitChar (n / 10 % 10) :: digitChar (n % 10)
          :: '-' :: (suffix.data ++ ['.', 'm', 'd']) := by
  rw [padStart3_eval h]
  simp [String.data_append]

theorem mdTail_append {mid : List Char} (h : mid.all notLineTerm = true) :
    mdTail (mid ++ ['.', 'm', 'd']) = true := by
  unfold mdTail
  have hlen : (mid ++ ['.', 'm', 'd']).length = mid.length + 3 := by simp
  rw [hlen, show mid.length + 3 - 3 = mid.length from by omega]
  rw [List.drop_left, List.take_left]
  simp [h]

theorem reportMatch_padded {n : Nat} (h : n ≤ 999) {suffix : String}
    (hnl : suffix.data.all notLineTerm = true) :
    reportMatch (padStart3 n ++ "-" ++ suffix ++ ".md") = true := by
  unfold reportMatch
  rw [data_report_name h suffix]
  simp [isDigitChar_digitChar (Nat.mod_lt _ (by norm_num)), mdTail_append hnl]

theorem reportNum_padded {n : Nat} (h : n ≤ 999) (suffix : String) :
    reportNum (padStart3 n ++ "-" ++ suffix ++ ".md") = n := by
  unfold reportNum
  rw [data_report_name h suffix]
  simp only [isDigitChar_digitChar (Nat.mod_lt _ (by norm_num)), beq_self_eq_true,
    Bool.and_self, Bool.and_true, Bool.true_and, if_true]
  rw [digitChar_toNat (Nat.mod_lt _ (by norm_num)),
    digitChar_toNat (Nat.mod_lt _ (by norm_num)),
    digitChar_toNat (Nat.mod_lt _ (by norm_num))]
  omega

theorem maxNum_singleton (x : Nat) : maxNum [x] = x := by
  simp [maxNum]

theorem start_new_report_file_ok {fs : FS} {td suffix : String}
    (h1 : ¬ (suffix = "")) (h2 : getCurrentTaskDir fs = some td) (h3 : ¬ (td = "")) :
    start_new_report_file fs suffix
      = .ok ("_tasks/" ++ td ++ "/"
          ++ (padStart3 (findNextReportNumber fs td) ++ "-" ++ suffix ++ ".md")) := by
  unfold start_new_report_file
  rw [if_neg h1, h2]
  show (if td = "" then Except.error "No current task"
    else Except.ok ("_tasks/" ++ td ++ "/"
      ++ (padStart3 (findNextReportNumber fs td) ++ "-" ++ suffix ++ ".md"))) = _
  rw [if_neg h3]

theorem maxNum_sorted_filter (l : List String) :
    maxNum ((sortStrings (l.filter reportMatch)).map reportNum)
      = maxNum ((l.filter reportMatch).map reportNum) :=
  maxNum_perm ((sortStrings_perm (l.filter reportMatch)).map reportNum)

theorem next_after_create {fs : FS} {td : String} (fname : String)
    (hm : reportMatch fname = true)
    (hv : reportNum fname = findNextReportNumber fs td) :
    findNextReportNumber (createReportFile fs td fname) td
      = findNextReportNumber fs td + 1 := by
  rw [findNextReportNumber_eq_unbounded] at hv ⊢
  rw [findNextReportNumber_eq_unbounded]
  cases hl : fs.taskFiles.lookup td with
  | none =>
    have hfs2 : (createReportFile fs td fname).taskFiles.lookup td = some [fname] := by
      unfold createReportFile
      rw [hl]
      show List.lookup td ((td, [fname]) :: fs.taskFiles) = some [fname]
      rw [List.lookup_cons]
      simp
    have hold : findNextReportNumberUnbounded fs td = 1 := by
      unfold findNextReportNumberUnbounded listReportsUnbounded
      rw [hl]
      rfl
    rw [hold]
    unfold findNextReportNumberUnbounded listReportsUnbounded
    rw [hfs2]
    have hfani : ([fname] : List String).filter reportMatch = [fname] := by
      simp [hm]
    simp only [hfani]
    have hsne : ¬ ((sortStrings [fname]).isEmpty = true) := by
      intro hc
      have := sortStrings_eq_nil_iff.mp (List.isEmpty_iff.mp hc)
      simp at this
    rw [if_neg hsne]
    rw [maxNum_perm ((sortStrings_perm [fname]).map reportNum)]
    simp only [List.map_cons, List.map_nil, maxNum_singleton]
    rw [hv, hold]
  | some l =>
    have hfs2b : (createReportFile fs td fname).taskFiles.lookup td
        = some (l ++ [fname]) := by
      unfold createReportFile
      rw [hl]
      show List.lookup td ((td, l ++ [fname]) :: fs.taskFiles) = some (l ++ [fname])
      rw [List.lookup_cons]
      simp
    simp only [findNextReportNumberUnbounded, listReportsUnbounded, hl] at hv
    unfold findNextReportNumberUnbounded listReportsUnbounded
    rw [hfs2b, hl]
    have hfa : (l ++ [fname]).filter reportMatch = l.filter reportMatch ++ [fname] := by
      rw [List.filter_append]
      simp [hm]
    simp only [hfa]
    have hsne : ¬ ((sortStrings (l.filter reportMatch ++ [fname])).isEmpty = true) := by
      intro hc
      have := sortStrings_eq_nil_iff.mp (List.isEmpty_iff.mp hc)
      simp at this
    rw [if_neg hsne]
    rw [maxNum_perm ((sortStrings_perm (l.filter reportMatch ++ [fname])).map reportNum)]
    rw [List.map_append, maxNum_append]
    simp only [List.map_cons, List.map_nil, maxNum_singleton]
    by_cases hA : (sortStrings (l.filter reportMatch)).isEmpty = true
    · have hAnil : l.filter reportMatch = [] :=
        sortStrings_eq_nil_iff.mp (List.isEmpty_iff.mp hA)
      rw [if_pos hA] at hv
      rw [if_pos hA]
      rw [hAnil]
      simp only [List.map_nil]
      rw [show maxNum [] = 0 from rfl, hv]
      rfl
    · rw [if_neg hA] at hv
      rw [if_neg hA]
      rw [maxNum_sorted_filter] at hv
      rw [maxNum_sorted_filter]
      rw [hv]
      have hmax : ∀ a : Nat, Nat.max a (a + 1) = a + 1 := fun a => Nat.max_eq_right (by omega)
      rw [hmax]

theorem next_le_999 {fs : FS} {td : String}
    (hnum : ((listReportsUnbounded fs td).all (fun f => reportNum f ≤ 998)) = true) :
    findNextReportNumber fs td ≤ 999 := by
  rw [findNextReportNumber_eq_unbounded]
  simp only [findNextReportNumberUnbounded]
  by_cases he : (listReportsUnbounded fs td).isEmpty = true
  · rw [if_pos he]
    omega
  · rw [if_neg he]
    have hmax : maxNum ((listReportsUnbounded fs td).map reportNum) ≤ 998 := by
      apply maxNum_le
      intro x hx
      obtain ⟨f, hf, hfx⟩ := List.mem_map.mp hx
      have := List.all_eq_true.mp hnum f hf
      simp only [decide_eq_true_eq] at this
      omega
    omega

/-- C10: whenever every catalogued report of the current task has number at
most 998, the filename start_new_report_file proposes itself matches the
report-catalog filter, and creating exactly that file makes the next
next_report_number computation return the proposed number plus 1. -/
theorem c10_proposed_name_matches_and_increments :
    ∀ (fs : FS) (td suffix : String),
      getCurrentTaskDir fs = some td → ¬ (td = "") →
      ¬ (suffix = "") → suffix.data.all notLineTerm = true →
      ((listReportsUnbounded fs td).all (fun f => reportNum f ≤ 998)) = true →
      (start_new_report_file fs suffix
          = .ok ("_tasks/" ++ td ++ "/"
            ++ (padStart3 (findNextReportNumber fs td) ++ "-" ++ suffix ++ ".md"))
        ∧ reportMatch (padStart3 (findNextReportNumber fs td) ++ "-" ++ suffix ++ ".md")
            = true
        ∧ findNextReportNumber
            (createReportFile fs td
              (padStart3 (findNextReportNumber fs td) ++ "-" ++ suffix ++ ".md")) td
            = findNextReportNumber fs td + 1) := by
  intro fs td suffix hcur htd hsuf hnl hnum
  have h999 : findNextReportNumber fs td ≤ 999 := next_le_999 hnum
  refine ⟨start_new_report_file_ok hsuf hcur htd, reportMatch_padded h999 hnl, ?_⟩
  exact next_after_create _ (reportMatch_padded h999 hnl) (reportNum_padded h999 suffix)

/-- A current task 2025-10-01-t holding the single report 001-a.md. -/
def fsS : FS :=
  ⟨[⟨"2025-10-01-t", true⟩], some "2025-10-01-t", [("2025-10-01-t", ["001-a.md"])]⟩

/-- Witness for C10: on the one-report state the proposal is 002-review.md,
it matches the catalog filter, and after creating it the next number is 3. -/
theorem c10_witness :
    (start_new_report_file fsS "review"
        = .ok ("_tasks/" ++ "2025-10-01-t" ++ "/"
          ++ (padStart3 (findNextReportNumber fsS "2025-10-01-t") ++ "-" ++ "review"
            ++ ".md"))
      ∧ reportMatch (padStart3 (findNextReportNumber fsS "2025-10-01-t") ++ "-"
          ++ "review" ++ ".md") = true
      ∧ findNextReportNumber
          (createReportFile fsS "2025-10-01-t"
            (padStart3 (findNextReportNumber fsS "2025-10-01-t") ++ "-" ++ "review"
              ++ ".md")) "2025-10-01-t"
          = findNextReportNumber fsS "2025-10-01-t" + 1)
    ∧ findNextReportNumber fsS "2025-10-01-t" = 2 :=
  ⟨c10_proposed_name_matches_and_increments fsS "2025-10-01-t" "review" (by decide)
      (by decide) (by decide) (by decide) (by decide),
    by decide⟩

/-- Witness for the amended C1, instantiated at the example directory. -/
theorem c1_witness :
    findNextReportNumber fsC1 "2025-10-01-t"
      = (if ((["001-a.md", "002-b.md", "42-c.md"].filter reportMatch).isEmpty) then 1
        else maxNum ((["001-a.md", "002-b.md",
            "42-c.md"].filter reportMatch).map reportNum) + 1) :=
  c1_next_is_max_plus_one.1 fsC1 "2025-10-01-t" ["001-a.md", "002-b.md", "42-c.md"]
    (by decide)
